import Mathlib

/-!
Verification development for the oncall relay server (src/server.js).

The server keeps all durable state in a SQLite database with three tables
(subscriptions, messages, webhooks).  We embed that state as a Lean
structure `DB` holding the rows of each table in rowid (insertion) order,
together with the next AUTOINCREMENT value for subscriptions and a logical
clock `now` standing for the current second of the wall clock, the value
the SQLite datetime defaults read.  Inserts stamp rows with the current
clock value and do not advance it: datetime has one-second granularity,
so distinct inserts may share a timestamp, and the clock only moves
(weakly) forward between requests.  Consequently timestamps are
non-decreasing in insertion order, and rows written in the same second
tie.  Where the source runs an ORDER BY over such timestamps, SQL fixes
no order among tied rows; the deterministic sort used here is one
permitted reading, and the contracts isLatestNotificationResult and
isListingResult capture exactly what the queries guarantee.

Push delivery (webpush.sendNotification) is external I/O; we model the
outcome of one delivery attempt to a given endpoint by an oracle
`outcome : String -> PushResult`.  The request handlers become pure state
transformers from `DB` (plus the request and the freshly generated uuid)
to `DB` paired with the JSON response they produce; a 400 response is the
`badRequest` constructor of the corresponding response type.
-/

namespace Oncall

/-- A row of the subscriptions table: id INTEGER PRIMARY KEY AUTOINCREMENT,
endpoint TEXT UNIQUE, keys_p256dh, keys_auth, createdAt (default now). -/
structure Subscription where
  id : Nat
  endpoint : String
  keys_p256dh : String
  keys_auth : String
  createdAt : Nat
deriving Repr, DecidableEq

/-- A row of the messages table: id TEXT PRIMARY KEY, title, body,
sentAt (default now), type in (notification, response), parentId, ui, data.
Optional TEXT columns are `Option String` (NULL is `none`). -/
structure Message where
  id : String
  title : String
  body : String
  sentAt : Nat
  type : String
  parentId : Option String
  ui : Option String
  data : Option String
deriving Repr, DecidableEq

/-- A row of the webhooks table: id, url UNIQUE, events (default response). -/
structure Webhook where
  id : Nat
  url : String
  events : String
deriving Repr, DecidableEq

/-- The whole durable store, rows listed in rowid (insertion) order,
plus the subscriptions AUTOINCREMENT counter and the logical clock. -/
structure DB where
  subs : List Subscription
  nextSubId : Nat
  messages : List Message
  webhooks : List Webhook
  now : Nat
deriving Repr, DecidableEq

/-- JavaScript truthiness of an optional string request field:
absent (undefined or null) and the empty string are falsy. -/
def truthy : Option String → Bool
  | none => false
  | some s => s != ""

/-- Stable insertion of `x` into a list sorted by `key` in descending
order: `x` goes in front of the first strictly smaller key, after any
equal keys already present. -/
def insertDescBy {α : Type} (key : α → Nat) (x : α) : List α → List α
  | [] => [x]
  | y :: ys => if key y < key x then x :: y :: ys else y :: insertDescBy key x ys

/-- Stable sort by `key`, descending: the reading used for the SQL
`ORDER BY ... DESC` clauses. -/
def sortDescBy {α : Type} (key : α → Nat) (l : List α) : List α :=
  l.foldr (insertDescBy key) []

/-- stmts.insertSub: `INSERT OR REPLACE INTO subscriptions (endpoint,
keys_p256dh, keys_auth) VALUES (?, ?, ?)`.  Because endpoint is UNIQUE,
INSERT OR REPLACE deletes any conflicting row and inserts a fresh row,
which receives a new AUTOINCREMENT id and the default createdAt of the
current datetime second (other rows written in the same second carry the
same stamp; the clock advances only between requests). -/
def insertSubRun (db : DB) (endpoint p256dh auth : String) : DB :=
  { db with
    subs := db.subs.filter (fun s => s.endpoint != endpoint) ++
      [{ id := db.nextSubId, endpoint := endpoint,
         keys_p256dh := p256dh, keys_auth := auth, createdAt := db.now }],
    nextSubId := db.nextSubId + 1 }

/-- stmts.deleteSub: `DELETE FROM subscriptions WHERE endpoint = ?`. -/
def deleteSubRun (db : DB) (endpoint : String) : DB :=
  { db with subs := db.subs.filter (fun s => s.endpoint != endpoint) }

/-- stmts.getAllSubs: `SELECT * FROM subscriptions ORDER BY createdAt DESC`. -/
def getAllSubs (db : DB) : List Subscription :=
  sortDescBy Subscription.createdAt db.subs

/-- stmts.getSubCount / getSubCount(): `SELECT COUNT(*) FROM subscriptions`. -/
def getSubCount (db : DB) : Nat :=
  db.subs.length

/-- stmts.insertMessage: `INSERT INTO messages (id, title, body, type,
parentId, ui, data) VALUES (?, ?, ?, ?, ?, ?, ?)`; sentAt defaults to the
current datetime second (a message written in the same second as an
earlier one carries an equal stamp; the clock advances only between
requests). -/
def insertMessageRun (db : DB) (id title body type : String)
    (parentId ui dataJ : Option String) : DB :=
  { db with
    messages := db.messages ++
      [{ id := id, title := title, body := body, sentAt := db.now,
         type := type, parentId := parentId, ui := ui, data := dataJ }] }

/-- stmts.getMessages: `SELECT ... FROM messages ORDER BY sentAt DESC
LIMIT 100`. -/
def getMessages (db : DB) : List Message :=
  (sortDescBy Message.sentAt db.messages).take 100

/-- Outcome of one webpush.sendNotification call for one endpoint:
either it resolves, or it rejects with an error carrying an optional
HTTP status code and a body. -/
inductive PushResult where
  | success
  | failure (statusCode : Option Nat) (body : String)
deriving Repr, DecidableEq

/-- Did the attempt succeed (the try block ran to completion)? -/
def isSuccess : PushResult → Bool
  | PushResult.success => true
  | PushResult.failure _ _ => false

/-- The dispatcher classification of a dead endpoint:
`err.statusCode === 404 || err.statusCode === 410`. -/
def isGone : PushResult → Bool
  | PushResult.success => false
  | PushResult.failure st _ => st == some 404 || st == some 410

/-- One element of the errors array built by sendToAll. -/
structure PushError where
  status : Option Nat
  body : String
  endpoint : String
deriving Repr, DecidableEq

/-- The aggregate delivery summary sendToAll returns. -/
structure DeliverySummary where
  sent : Nat
  failed : Nat
  removed : Nat
  errors : List PushError
deriving Repr, DecidableEq

/-- The body of one iteration of sendToAll over one subscription: on
success bump sent; on failure bump failed, record the error (with the
endpoint truncated to 60 characters), and when the status is 404 or 410
delete the subscription and bump removed. -/
def sendToAllStep (outcome : String → PushResult)
    (acc : DB × DeliverySummary) (sub : Subscription) : DB × DeliverySummary :=
  match outcome sub.endpoint with
  | PushResult.success => (acc.1, { acc.2 with sent := acc.2.sent + 1 })
  | PushResult.failure st body =>
    let r := { acc.2 with
      failed := acc.2.failed + 1,
      errors := acc.2.errors ++
        [{ status := st, body := body, endpoint := sub.endpoint.take 60 ++ "..." }] }
    if st == some 404 || st == some 410 then
      (deleteSubRun acc.1 sub.endpoint, { r with removed := r.removed + 1 })
    else
      (acc.1, r)

/-- sendToAll(subs, payload): attempts delivery to every given
subscription, each attempt isolated by its own try/catch, and aggregates
the outcomes.  The attempts run concurrently in the source, but every
per-attempt effect (counter update, row deletion) is atomic on the
single-threaded event loop, so the net effect is the fold below. -/
def sendToAll (db : DB) (subs : List Subscription)
    (outcome : String → PushResult) : DB × DeliverySummary :=
  subs.foldl (sendToAllStep outcome)
    (db, { sent := 0, failed := 0, removed := 0, errors := [] })

/-- Request body of POST /api/notify. -/
structure NotifyReq where
  title : Option String
  body : Option String
  url : Option String
  tag : Option String
  ui : Option String
deriving Repr

/-- Response of POST /api/notify: 400, or the messageId with the summary. -/
inductive NotifyResp where
  | badRequest
  | ok (messageId : String) (results : DeliverySummary)
deriving Repr, DecidableEq

/-- The persistence step of POST /api/notify: insert the notification row
(uiJson when a ui spec was given, data NULL, parentId NULL). -/
def notifyPersisted (db : DB) (req : NotifyReq) (newId : String) : DB :=
  insertMessageRun db newId (req.title.getD "") (req.body.getD "")
    "notification" none req.ui none

/-- POST /api/notify: 400 unless title and body are truthy; otherwise
insert the message, read all subscriptions, dispatch, and answer with the
messageId and the delivery summary.  `newId` is the uuid generated for
this request. -/
def apiNotify (db : DB) (req : NotifyReq) (newId : String)
    (outcome : String → PushResult) : DB × NotifyResp :=
  if !(truthy req.title) || !(truthy req.body) then
    (db, NotifyResp.badRequest)
  else
    let db1 := notifyPersisted db req newId
    let out := sendToAll db1 (getAllSubs db1) outcome
    (out.1, NotifyResp.ok newId out.2)

/-- Request body of POST /api/respond. -/
structure RespondReq where
  messageId : Option String
  text : Option String
  data : Option String
deriving Repr

/-- Response of POST /api/respond. -/
inductive RespondResp where
  | badRequest
  | ok (responseId : String)
deriving Repr, DecidableEq

/-- The query `SELECT id FROM messages WHERE type = 'notification' ORDER
BY sentAt DESC LIMIT 1`. -/
def latestNotificationId (db : DB) : Option String :=
  ((sortDescBy Message.sentAt
      (db.messages.filter (fun m => m.type == "notification"))).head?).map
    Message.id

/-- Everything the query `SELECT id FROM messages WHERE type =
'notification' ORDER BY sentAt DESC LIMIT 1` guarantees about its
result: NULL exactly when no notification exists, otherwise the id of
some notification with maximal sentAt.  SQL fixes no order among rows
with equal sentAt, so every tied maximal row is a permitted result. -/
def isLatestNotificationResult (db : DB) (res : Option String) : Prop :=
  match res with
  | none => ∀ m ∈ db.messages, m.type ≠ "notification"
  | some i => ∃ n ∈ db.messages, n.type = "notification" ∧ n.id = i ∧
      ∀ m ∈ db.messages, m.type = "notification" → m.sentAt ≤ n.sentAt

/-- Everything `SELECT * FROM subscriptions ORDER BY createdAt DESC`
guarantees about the returned listing: a permutation of the table whose
createdAt keys are non-increasing.  SQL fixes no order among rows with
equal createdAt. -/
def isListingResult (db : DB) (l : List Subscription) : Prop :=
  l.Perm db.subs ∧ List.Pairwise (fun a b => b.createdAt ≤ a.createdAt) l

/-- POST /api/respond: 400 unless text or data is truthy; when messageId
is falsy it is resolved to the most recent notification (or NULL when
none exists); then the response row is inserted with the fixed title
Response, body text-or-empty, ui NULL and data as given. -/
def apiRespond (db : DB) (req : RespondReq) (newRespId : String) :
    DB × RespondResp :=
  if !(truthy req.text) && !(truthy req.data) then
    (db, RespondResp.badRequest)
  else
    let parent : Option String :=
      if truthy req.messageId then req.messageId else latestNotificationId db
    let db1 := insertMessageRun db newRespId "Response" (req.text.getD "")
      "response" parent none req.data
    (db1, RespondResp.ok newRespId)

/-- Request body of POST /api/subscribe (keys flattened). -/
structure SubscribeReq where
  endpoint : Option String
  p256dh : Option String
  auth : Option String
deriving Repr

/-- Response shape of the subscribe and unsubscribe handlers. -/
inductive SimpleResp where
  | badRequest
  | ok
deriving Repr, DecidableEq

/-- POST /api/subscribe: 400 unless endpoint and both key fields are
truthy; otherwise upserts the subscription. -/
def apiSubscribe (db : DB) (req : SubscribeReq) : DB × SimpleResp :=
  if !(truthy req.endpoint) || !(truthy req.p256dh) || !(truthy req.auth) then
    (db, SimpleResp.badRequest)
  else
    (insertSubRun db (req.endpoint.getD "") (req.p256dh.getD "")
      (req.auth.getD ""), SimpleResp.ok)

/-- DELETE /api/subscribe: 400 unless endpoint is truthy; otherwise
deletes the row (a no-op when absent) and answers ok. -/
def apiUnsubscribe (db : DB) (endpoint : Option String) : DB × SimpleResp :=
  if !(truthy endpoint) then
    (db, SimpleResp.badRequest)
  else
    (deleteSubRun db (endpoint.getD ""), SimpleResp.ok)

/-- Response of POST /api/purge (ok:true is implicit in the shape). -/
structure PurgeResp where
  removed : Nat
  remaining : Nat
deriving Repr, DecidableEq

/-- One iteration of the purge loop: the zero-time-to-live probe push is
attempted; only a failure with status 404 or 410 deletes the subscription
and bumps the removed counter. -/
def purgeStep (outcome : String → PushResult)
    (acc : DB × Nat) (sub : Subscription) : DB × Nat :=
  match outcome sub.endpoint with
  | PushResult.success => acc
  | PushResult.failure st _ =>
    if st == some 404 || st == some 410 then
      (deleteSubRun acc.1 sub.endpoint, acc.2 + 1)
    else
      acc

/-- POST /api/purge: probe every subscription with a TTL 0 push, remove
the gone ones, and answer with the removal count and the remaining
subscription count. -/
def apiPurge (db : DB) (outcome : String → PushResult) : DB × PurgeResp :=
  let out := (getAllSubs db).foldl (purgeStep outcome) (db, 0)
  (out.1, { removed := out.2, remaining := getSubCount out.1 })

/-- Splitting a character list at every comma, accumulating the current
segment in reverse: the semantics of the JavaScript split(",") call. -/
def splitCommaAux : List Char → List Char → List String
  | [], acc => [String.mk acc.reverse]
  | c :: cs, acc =>
    if c = ',' then String.mk acc.reverse :: splitCommaAux cs []
    else splitCommaAux cs (c :: acc)

/-- events.split(","): the comma-delimited event list of a webhook. -/
def splitComma (s : String) : List String :=
  splitCommaAux s.toList []

/-- The filter of fireWebhooks: a hook matches event `e` when its events
field is the wildcard or `e` is a member of its comma-delimited list. -/
def webhookMatches (h : Webhook) (event : String) : Bool :=
  h.events == "*" || (splitComma h.events).contains event

/-- The set of webhooks fireWebhooks invokes for a given event kind;
apiNotify fires event kind notification, apiRespond fires response. -/
def firedWebhooks (db : DB) (event : String) : List Webhook :=
  db.webhooks.filter (fun h => webhookMatches h event)

/-- A parsed WebSocket client message. -/
structure WsMsg where
  type : String
  title : Option String
  body : Option String
deriving Repr

/-- The wss connection message handler: on a notify message with truthy
title and body, insert a notification row (ui and data NULL) and dispatch
to all subscriptions; any other message leaves the store untouched. -/
def wsNotify (db : DB) (msg : WsMsg) (newId : String)
    (outcome : String → PushResult) : DB :=
  if msg.type == "notify" && truthy msg.title && truthy msg.body then
    let db1 := insertMessageRun db newId (msg.title.getD "")
      (msg.body.getD "") "notification" none none none
    (sendToAll db1 (getAllSubs db1) outcome).1
  else
    db

/-- Well-formedness of a store reachable by the operations above: ids
stay below the AUTOINCREMENT counter, no timestamp is later than the
current clock, and message timestamps are non-decreasing in insertion
order (rows written in the same second tie). -/
def WF (db : DB) : Prop :=
  (∀ s ∈ db.subs, s.id < db.nextSubId) ∧
  (∀ s ∈ db.subs, s.createdAt ≤ db.now) ∧
  (∀ m ∈ db.messages, m.sentAt ≤ db.now) ∧
  List.Pairwise (fun a b : Message => a.sentAt ≤ b.sentAt) db.messages

/-- The empty store a fresh database file starts from. -/
def emptyDb : DB :=
  { subs := [], nextSubId := 1, messages := [], webhooks := [], now := 0 }

/-! ### Helper lemmas about the descending stable sort -/

theorem insertDescBy_perm {α : Type} (key : α → Nat) (x : α) :
    ∀ l : List α, (insertDescBy key x l).Perm (x :: l)
  | [] => List.Perm.refl _
  | y :: ys => by
    unfold insertDescBy
    by_cases h : key y < key x
    · simp [h]
    · rw [if_neg h]
      exact ((insertDescBy_perm key x ys).cons y).trans (List.Perm.swap x y ys)

theorem sortDescBy_perm {α : Type} (key : α → Nat) :
    ∀ l : List α, (sortDescBy key l).Perm l
  | [] => List.Perm.refl _
  | a :: l => by
    show (insertDescBy key a (sortDescBy key l)).Perm (a :: l)
    exact (insertDescBy_perm key a _).trans ((sortDescBy_perm key l).cons a)

theorem foldr_insertDescBy_max {α : Type} (key : α → Nat) (x : α) :
    ∀ (m t : List α), (∀ y ∈ m, key y < key x) →
      ∃ t', m.foldr (insertDescBy key) (x :: t) = x :: t'
  | [], t, _ => ⟨t, rfl⟩
  | a :: m, t, h => by
    obtain ⟨t', ht'⟩ :=
      foldr_insertDescBy_max key x m t (fun y hy => h y (List.mem_cons_of_mem a hy))
    have hax : ¬ key x < key a := by
      have := h a (List.mem_cons_self a m)
      omega
    refine ⟨insertDescBy key a t', ?_⟩
    rw [List.foldr_cons, ht']
    simp only [insertDescBy]
    rw [if_neg hax]

/-- When `x` has strictly the greatest key, the descending sort of any
list ending in `x` puts `x` first. -/
theorem sortDescBy_append_max_head {α : Type} (key : α → Nat) (x : α)
    (m : List α) (h : ∀ y ∈ m, key y < key x) :
    (sortDescBy key (m ++ [x])).head? = some x := by
  unfold sortDescBy
  rw [List.foldr_append]
  obtain ⟨t', ht'⟩ := foldr_insertDescBy_max key x m [] h
  rw [show List.foldr (insertDescBy key) [] [x] = x :: [] from rfl, ht']
  rfl

theorem getAllSubs_perm (db : DB) : (getAllSubs db).Perm db.subs :=
  sortDescBy_perm _ _

/-! ### Helper lemmas about the dispatch fold -/

/-- Case analysis on one dispatch step: the three shapes the step can take. -/
theorem sendToAllStep_cases (outcome : String → PushResult)
    (acc : DB × DeliverySummary) (t : Subscription) :
    (outcome t.endpoint = PushResult.success ∧
      sendToAllStep outcome acc t = (acc.1, { acc.2 with sent := acc.2.sent + 1 })) ∨
    (∃ st body, outcome t.endpoint = PushResult.failure st body ∧
      (st == some 404 || st == some 410) = true ∧
      sendToAllStep outcome acc t =
        (deleteSubRun acc.1 t.endpoint,
         { acc.2 with
           failed := acc.2.failed + 1,
           errors := acc.2.errors ++
             [{ status := st, body := body, endpoint := t.endpoint.take 60 ++ "..." }],
           removed := acc.2.removed + 1 })) ∨
    (∃ st body, outcome t.endpoint = PushResult.failure st body ∧
      (st == some 404 || st == some 410) = false ∧
      sendToAllStep outcome acc t =
        (acc.1,
         { acc.2 with
           failed := acc.2.failed + 1,
           errors := acc.2.errors ++
             [{ status := st, body := body, endpoint := t.endpoint.take 60 ++ "..." }] })) := by
  cases h : outcome t.endpoint with
  | success =>
    exact Or.inl ⟨rfl, by simp [sendToAllStep, h]⟩
  | failure st body =>
    by_cases hg : (st == some 404 || st == some 410) = true
    · refine Or.inr (Or.inl ⟨st, body, rfl, hg, ?_⟩)
      simp only [sendToAllStep, h]
      rw [if_pos hg]
    · refine Or.inr (Or.inr ⟨st, body, rfl, by simpa using hg, ?_⟩)
      simp only [sendToAllStep, h]
      rw [if_neg hg]

theorem sendToAll_fold_sent (outcome : String → PushResult) :
    ∀ (subs : List Subscription) (db : DB) (r : DeliverySummary),
      (subs.foldl (sendToAllStep outcome) (db, r)).2.sent =
        r.sent + subs.countP (fun s => isSuccess (outcome s.endpoint))
  | [], db, r => by simp
  | t :: rest, db, r => by
    rw [List.foldl_cons]
    rcases sendToAllStep_cases outcome (db, r) t with ⟨h, hstep⟩ |
      ⟨st, body, h, hg, hstep⟩ | ⟨st, body, h, hg, hstep⟩
    · rw [hstep, sendToAll_fold_sent outcome rest, List.countP_cons]
      simp [h, isSuccess]
      omega
    · rw [hstep, sendToAll_fold_sent outcome rest, List.countP_cons]
      simp [h, isSuccess]
    · rw [hstep, sendToAll_fold_sent outcome rest, List.countP_cons]
      simp [h, isSuccess]

theorem sendToAll_fold_failed (outcome : String → PushResult) :
    ∀ (subs : List Subscription) (db : DB) (r : DeliverySummary),
      (subs.foldl (sendToAllStep outcome) (db, r)).2.failed =
        r.failed + subs.countP (fun s => !(isSuccess (outcome s.endpoint)))
  | [], db, r => by simp
  | t :: rest, db, r => by
    rw [List.foldl_cons]
    rcases sendToAllStep_cases outcome (db, r) t with ⟨h, hstep⟩ |
      ⟨st, body, h, hg, hstep⟩ | ⟨st, body, h, hg, hstep⟩
    · rw [hstep, sendToAll_fold_failed outcome rest, List.countP_cons]
      simp [h, isSuccess]
    · rw [hstep, sendToAll_fold_failed outcome rest, List.countP_cons]
      simp [h, isSuccess]
      omega
    · rw [hstep, sendToAll_fold_failed outcome rest, List.countP_cons]
      simp [h, isSuccess]
      omega

theorem sendToAll_fold_removed (outcome : String → PushResult) :
    ∀ (subs : List Subscription) (db : DB) (r : DeliverySummary),
      (subs.foldl (sendToAllStep outcome) (db, r)).2.removed =
        r.removed + subs.countP (fun s => isGone (outcome s.endpoint))
  | [], db, r => by simp
  | t :: rest, db, r => by
    rw [List.foldl_cons]
    rcases sendToAllStep_cases outcome (db, r) t with ⟨h, hstep⟩ |
      ⟨st, body, h, hg, hstep⟩ | ⟨st, body, h, hg, hstep⟩
    · rw [hstep, sendToAll_fold_removed outcome rest, List.countP_cons]
      simp [h, isGone]
    · rw [hstep, sendToAll_fold_removed outcome rest, List.countP_cons]
      simp [h, hg, isGone]
      omega
    · rw [hstep, sendToAll_fold_removed outcome rest, List.countP_cons]
      simp [h, hg, isGone]

/-- The store after the dispatch fold: only the subscriptions table
changes, and a row survives unless its endpoint had a gone outcome and
occurred in the dispatched list. -/
theorem sendToAll_fold_db (outcome : String → PushResult) :
    ∀ (subs : List Subscription) (db : DB) (r : DeliverySummary),
      (subs.foldl (sendToAllStep outcome) (db, r)).1 =
        { db with subs := db.subs.filter (fun s =>
            !(isGone (outcome s.endpoint) &&
              subs.any (fun t => t.endpoint == s.endpoint))) }
  | [], db, r => by simp
  | t :: rest, db, r => by
    rw [List.foldl_cons]
    rcases sendToAllStep_cases outcome (db, r) t with ⟨h, hstep⟩ |
      ⟨st, body, h, hg, hstep⟩ | ⟨st, body, h, hg, hstep⟩
    · rw [hstep, sendToAll_fold_db outcome rest]
      congr 1
      apply List.filter_congr
      intro s _
      by_cases hts : t.endpoint = s.endpoint
      · have hs : outcome s.endpoint = PushResult.success := hts ▸ h
        simp [isGone, hs]
      · simp [List.any_cons, beq_eq_false_iff_ne.mpr hts]
    · rw [hstep, sendToAll_fold_db outcome rest]
      simp only [deleteSubRun]
      congr 1
      rw [List.filter_filter]
      apply List.filter_congr
      intro s _
      by_cases hts : t.endpoint = s.endpoint
      · have hsg : isGone (outcome s.endpoint) = true := by
          rw [← hts, h]
          simpa [isGone] using hg
        simp [List.any_cons, hsg, hts, beq_iff_eq]
      · have h1 : s.endpoint ≠ t.endpoint := fun hh => hts hh.symm
        simp [List.any_cons, beq_eq_false_iff_ne.mpr hts, h1]
    · rw [hstep, sendToAll_fold_db outcome rest]
      congr 1
      apply List.filter_congr
      intro s _
      by_cases hts : t.endpoint = s.endpoint
      · have hsg : isGone (outcome s.endpoint) = false := by
          rw [← hts, h]
          simpa [isGone] using hg
        simp [hsg]
      · simp [List.any_cons, beq_eq_false_iff_ne.mpr hts]

/-- Dispatching to any permutation of the whole registry (in particular
to getAllSubs) leaves exactly the rows without a gone outcome. -/
theorem sendToAll_db_of_perm (db : DB) (subs : List Subscription)
    (outcome : String → PushResult) (hperm : subs.Perm db.subs) :
    (sendToAll db subs outcome).1 =
      { db with subs := db.subs.filter (fun s => !(isGone (outcome s.endpoint))) } := by
  rw [sendToAll, sendToAll_fold_db]
  congr 1
  apply List.filter_congr
  intro s hs
  have hmem : s ∈ subs := hperm.mem_iff.mpr hs
  have hany : subs.any (fun t => t.endpoint == s.endpoint) = true :=
    List.any_eq_true.mpr ⟨s, hmem, by simp⟩
  rw [hany, Bool.and_true]

/-- Dispatch never touches the message log (nor webhooks, the clock or
the id counter). -/
theorem sendToAll_messages (db : DB) (subs : List Subscription)
    (outcome : String → PushResult) :
    (sendToAll db subs outcome).1.messages = db.messages := by
  rw [sendToAll, sendToAll_fold_db]

/-! ### Helper lemmas about the purge fold -/

theorem purgeStep_cases (outcome : String → PushResult)
    (acc : DB × Nat) (t : Subscription) :
    (isGone (outcome t.endpoint) = false ∧ purgeStep outcome acc t = acc) ∨
    (isGone (outcome t.endpoint) = true ∧
      purgeStep outcome acc t = (deleteSubRun acc.1 t.endpoint, acc.2 + 1)) := by
  cases h : outcome t.endpoint with
  | success =>
    exact Or.inl ⟨by simp [isGone, h], by simp [purgeStep, h]⟩
  | failure st body =>
    by_cases hg : (st == some 404 || st == some 410) = true
    · refine Or.inr ⟨by simp [isGone, h, hg], ?_⟩
      simp only [purgeStep, h]
      rw [if_pos hg]
    · refine Or.inl ⟨by simp only [isGone, h]; simpa using hg, ?_⟩
      simp only [purgeStep, h]
      rw [if_neg hg]

theorem purge_fold_removed (outcome : String → PushResult) :
    ∀ (subs : List Subscription) (db : DB) (n : Nat),
      (subs.foldl (purgeStep outcome) (db, n)).2 =
        n + subs.countP (fun s => isGone (outcome s.endpoint))
  | [], db, n => by simp
  | t :: rest, db, n => by
    rw [List.foldl_cons]
    rcases purgeStep_cases outcome (db, n) t with ⟨h, hstep⟩ | ⟨h, hstep⟩
    · rw [hstep, purge_fold_removed outcome rest, List.countP_cons]
      simp [h]
    · rw [hstep, purge_fold_removed outcome rest, List.countP_cons]
      simp [h]
      omega

theorem purge_fold_db (outcome : String → PushResult) :
    ∀ (subs : List Subscription) (db : DB) (n : Nat),
      (subs.foldl (purgeStep outcome) (db, n)).1 =
        { db with subs := db.subs.filter (fun s =>
            !(isGone (outcome s.endpoint) &&
              subs.any (fun t => t.endpoint == s.endpoint))) }
  | [], db, n => by simp
  | t :: rest, db, n => by
    rw [List.foldl_cons]
    rcases purgeStep_cases outcome (db, n) t with ⟨h, hstep⟩ | ⟨h, hstep⟩
    · rw [hstep, purge_fold_db outcome rest]
      congr 1
      apply List.filter_congr
      intro s _
      by_cases hts : t.endpoint = s.endpoint
      · have hsg : isGone (outcome s.endpoint) = false := hts ▸ h
        simp [hsg]
      · simp [List.any_cons, beq_eq_false_iff_ne.mpr hts]
    · rw [hstep, purge_fold_db outcome rest]
      simp only [deleteSubRun]
      congr 1
      rw [List.filter_filter]
      apply List.filter_congr
      intro s _
      by_cases hts : t.endpoint = s.endpoint
      · have hsg : isGone (outcome s.endpoint) = true := hts ▸ h
        simp [List.any_cons, hsg, hts, beq_iff_eq]
      · have h1 : s.endpoint ≠ t.endpoint := fun hh => hts hh.symm
        simp [List.any_cons, beq_eq_false_iff_ne.mpr hts, h1]

/-- The purge fold over a permutation of the registry leaves exactly the
rows without a gone probe outcome. -/
theorem purge_fold_db_of_perm (db : DB) (subs : List Subscription)
    (outcome : String → PushResult) (hperm : subs.Perm db.subs) :
    (subs.foldl (purgeStep outcome) (db, 0)).1 =
      { db with subs := db.subs.filter (fun s => !(isGone (outcome s.endpoint))) } := by
  rw [purge_fold_db]
  congr 1
  apply List.filter_congr
  intro s hs
  have hmem : s ∈ subs := hperm.mem_iff.mpr hs
  have hany : subs.any (fun t => t.endpoint == s.endpoint) = true :=
    List.any_eq_true.mpr ⟨s, hmem, by simp⟩
  rw [hany, Bool.and_true]

/-! ### Helper lemmas about the handlers and the latest-notification query -/

/-- A Bool complement partitions any count. -/
theorem countP_add_countP_not {α : Type} (p : α → Bool) (l : List α) :
    l.countP p + l.countP (fun a => !(p a)) = l.length := by
  induction l with
  | nil => rfl
  | cons t rest ih =>
    rw [List.countP_cons, List.countP_cons]
    cases hp : p t <;> simp [hp] <;> omega

/-- apiNotify on a valid request: persist first, then dispatch from the
persisted store, then answer ok with the generated id. -/
theorem apiNotify_valid_eq (db : DB) (req : NotifyReq) (newId : String)
    (outcome : String → PushResult)
    (ht : truthy req.title = true) (hb : truthy req.body = true) :
    apiNotify db req newId outcome =
      ((sendToAll (notifyPersisted db req newId)
          (getAllSubs (notifyPersisted db req newId)) outcome).1,
       NotifyResp.ok newId
         (sendToAll (notifyPersisted db req newId)
           (getAllSubs (notifyPersisted db req newId)) outcome).2) := by
  rw [apiNotify, if_neg (by simp [ht, hb])]

/-- apiRespond on a valid request with no messageId given: resolve the
parent to the latest notification and insert the response row. -/
theorem apiRespond_valid_eq (db : DB) (req : RespondReq) (rid : String)
    (hmid : truthy req.messageId = false)
    (hvalid : truthy req.text = true ∨ truthy req.data = true) :
    apiRespond db req rid =
      (insertMessageRun db rid "Response" (req.text.getD "") "response"
        (latestNotificationId db) none req.data,
       RespondResp.ok rid) := by
  have hcond : ¬((!(truthy req.text) && !(truthy req.data)) = true) := by
    rcases hvalid with h | h <;> simp [h]
  rw [apiRespond, if_neg hcond, if_neg (by simp [hmid])]

/-- Inserting into a descending-sorted list keeps it sorted. -/
theorem insertDescBy_sorted {α : Type} (key : α → Nat) (x : α) :
    ∀ l : List α, List.Pairwise (fun a b => key b ≤ key a) l →
      List.Pairwise (fun a b => key b ≤ key a) (insertDescBy key x l)
  | [], _ => by simp [insertDescBy]
  | y :: ys, h => by
    simp only [insertDescBy]
    obtain ⟨hy, hys⟩ := List.pairwise_cons.mp h
    by_cases hxy : key y < key x
    · rw [if_pos hxy]
      refine List.pairwise_cons.mpr ⟨?_, h⟩
      intro z hz
      rcases List.mem_cons.mp hz with rfl | hz
      · omega
      · have := hy z hz
        omega
    · rw [if_neg hxy]
      refine List.pairwise_cons.mpr ⟨?_, insertDescBy_sorted key x ys hys⟩
      intro z hz
      have hz' := (insertDescBy_perm key x ys).mem_iff.mp hz
      rcases List.mem_cons.mp hz' with rfl | hz'
      · omega
      · exact hy z hz'

/-- The descending sort is sorted: its keys are non-increasing, which is
all an ORDER BY ... DESC clause promises about the row order. -/
theorem sortDescBy_sorted {α : Type} (key : α → Nat) :
    ∀ l : List α, List.Pairwise (fun a b => key b ≤ key a) (sortDescBy key l)
  | [] => List.Pairwise.nil
  | a :: l => by
    show List.Pairwise _ (insertDescBy key a (sortDescBy key l))
    exact insertDescBy_sorted key a _ (sortDescBy_sorted key l)

/-- The head of the descending sort of a nonempty list carries a maximal
key (among tied maximal keys, which element ends up first is a property
of this particular sort, not of the SQL query it renders). -/
theorem sortDescBy_head_max {α : Type} (key : α → Nat) (l : List α)
    (hne : l ≠ []) :
    ∃ z, (sortDescBy key l).head? = some z ∧ z ∈ l ∧
      ∀ y ∈ l, key y ≤ key z := by
  have hperm := sortDescBy_perm key l
  have hsort := sortDescBy_sorted key l
  cases hs : sortDescBy key l with
  | nil =>
    rw [hs] at hperm
    exact absurd hperm.symm.eq_nil hne
  | cons z t =>
    rw [hs] at hperm hsort
    refine ⟨z, rfl, hperm.mem_iff.mp (List.mem_cons_self z t), ?_⟩
    intro y hy
    rcases List.mem_cons.mp (hperm.mem_iff.mpr hy) with rfl | hy'
    · exact Nat.le_refl _
    · exact (List.pairwise_cons.mp hsort).1 y hy'

/-- The latest-notification query of the embedding returns the id of a
notification with maximal sentAt whenever one exists. -/
theorem latestNotificationId_max (db : DB)
    (hne : ∃ n ∈ db.messages, n.type = "notification") :
    ∃ p, latestNotificationId db = some p.id ∧ p ∈ db.messages ∧
      p.type = "notification" ∧
      ∀ m ∈ db.messages, m.type = "notification" → m.sentAt ≤ p.sentAt := by
  obtain ⟨n, hn, hnt⟩ := hne
  have hln : db.messages.filter (fun m => m.type == "notification") ≠ [] :=
    List.ne_nil_of_mem (List.mem_filter.mpr ⟨hn, by simp [hnt]⟩)
  obtain ⟨z, hhead, hzmem, hzmax⟩ := sortDescBy_head_max Message.sentAt _ hln
  refine ⟨z, ?_, (List.mem_filter.mp hzmem).1,
    by simpa using (List.mem_filter.mp hzmem).2, ?_⟩
  · rw [latestNotificationId, hhead]
    rfl
  · intro m hm hmt
    exact hzmax m (List.mem_filter.mpr ⟨hm, by simp [hmt]⟩)

/-- The embedded latest-notification query is one permitted result of
the SQL query: it satisfies everything the source guarantees. -/
theorem latestNotificationId_contract (db : DB) :
    isLatestNotificationResult db (latestNotificationId db) := by
  by_cases hne : ∃ n ∈ db.messages, n.type = "notification"
  · obtain ⟨p, hid, hmem, htype, hmax⟩ := latestNotificationId_max db hne
    rw [hid]
    exact ⟨p, hmem, htype, rfl, hmax⟩
  · push_neg at hne
    have hnil : db.messages.filter (fun m => m.type == "notification") = [] := by
      rw [List.filter_eq_nil_iff]
      intro m hm
      simp [hne m hm]
    have hlid : latestNotificationId db = none := by
      rw [latestNotificationId, hnil]
      rfl
    rw [hlid]
    exact hne

/-- The embedded subscription listing is one permitted result of the
subscriptions query. -/
theorem getAllSubs_contract (db : DB) : isListingResult db (getAllSubs db) :=
  ⟨getAllSubs_perm db, sortDescBy_sorted Subscription.createdAt db.subs⟩

theorem sendToAll_sent (db : DB) (subs : List Subscription)
    (outcome : String → PushResult) :
    (sendToAll db subs outcome).2.sent =
      subs.countP (fun s => isSuccess (outcome s.endpoint)) := by
  rw [sendToAll, sendToAll_fold_sent]
  simp

theorem sendToAll_failed (db : DB) (subs : List Subscription)
    (outcome : String → PushResult) :
    (sendToAll db subs outcome).2.failed =
      subs.countP (fun s => !(isSuccess (outcome s.endpoint))) := by
  rw [sendToAll, sendToAll_fold_failed]
  simp

theorem sendToAll_removed (db : DB) (subs : List Subscription)
    (outcome : String → PushResult) :
    (sendToAll db subs outcome).2.removed =
      subs.countP (fun s => isGone (outcome s.endpoint)) := by
  rw [sendToAll, sendToAll_fold_removed]
  simp

/-! ### The claims -/

/-- Claim C1: a notify request with truthy title and body first persists
a message with kind notification and NULL parentId in the message log;
push dispatch then runs from that persisted store; the operation answers
exactly one messageId, equal to the id of the persisted record, and the
record is still in the log of the final store. -/
theorem notify_persists_before_dispatch (db : DB) (req : NotifyReq)
    (newId : String) (outcome : String → PushResult)
    (ht : truthy req.title = true) (hb : truthy req.body = true) :
    apiNotify db req newId outcome =
      ((sendToAll (notifyPersisted db req newId)
          (getAllSubs (notifyPersisted db req newId)) outcome).1,
       NotifyResp.ok newId
         (sendToAll (notifyPersisted db req newId)
           (getAllSubs (notifyPersisted db req newId)) outcome).2) ∧
    (∃ m : Message,
      (notifyPersisted db req newId).messages = db.messages ++ [m] ∧
      m.id = newId ∧ m.type = "notification" ∧ m.parentId = none ∧
      m ∈ (apiNotify db req newId outcome).1.messages) := by
  have hmain := apiNotify_valid_eq db req newId outcome ht hb
  refine ⟨hmain, ⟨_, rfl, rfl, rfl, rfl, ?_⟩⟩
  rw [hmain]
  show _ ∈ (sendToAll (notifyPersisted db req newId)
    (getAllSubs (notifyPersisted db req newId)) outcome).1.messages
  rw [sendToAll_messages]
  simp only [notifyPersisted, insertMessageRun]
  exact List.mem_append_right _ (List.mem_singleton.mpr rfl)

/-- Witness for the notify persistence claim at a concrete request. -/
theorem notify_persists_before_dispatch_witness :
    ∃ m : Message,
      (notifyPersisted emptyDb
        { title := some "Deploy", body := some "Ready",
          url := none, tag := none, ui := none } "m1").messages =
        emptyDb.messages ++ [m] ∧
      m.id = "m1" ∧ m.type = "notification" ∧ m.parentId = none ∧
      m ∈ (apiNotify emptyDb
        { title := some "Deploy", body := some "Ready",
          url := none, tag := none, ui := none } "m1"
        (fun _ => PushResult.success)).1.messages :=
  (notify_persists_before_dispatch emptyDb
    { title := some "Deploy", body := some "Ready",
      url := none, tag := none, ui := none } "m1"
    (fun _ => PushResult.success) (by decide) (by decide)).2

/-- Claim C2: dispatching to the N registered subscriptions of which K
report gone yields removed = K, failed at least K, sent = N minus failed
(indeed sent plus failed = N), deletes from the registry exactly the K
gone rows, and dispatching to zero subscriptions yields the all-zero
summary with an empty error list and an unchanged store. -/
theorem dispatch_gone_accounting (db : DB) (outcome : String → PushResult) :
    (sendToAll db (getAllSubs db) outcome).2.removed =
      (getAllSubs db).countP (fun s => isGone (outcome s.endpoint)) ∧
    (getAllSubs db).countP (fun s => isGone (outcome s.endpoint)) ≤
      (sendToAll db (getAllSubs db) outcome).2.failed ∧
    (sendToAll db (getAllSubs db) outcome).2.sent =
      (getAllSubs db).length - (sendToAll db (getAllSubs db) outcome).2.failed ∧
    (sendToAll db (getAllSubs db) outcome).2.sent +
      (sendToAll db (getAllSubs db) outcome).2.failed = (getAllSubs db).length ∧
    (sendToAll db (getAllSubs db) outcome).1.subs =
      db.subs.filter (fun s => !(isGone (outcome s.endpoint))) ∧
    (sendToAll db (getAllSubs db) outcome).1.subs.length +
      (getAllSubs db).countP (fun s => isGone (outcome s.endpoint)) =
      (getAllSubs db).length ∧
    sendToAll db [] outcome =
      (db, { sent := 0, failed := 0, removed := 0, errors := [] }) := by
  have hsubs : (sendToAll db (getAllSubs db) outcome).1 =
      { db with subs := db.subs.filter (fun s => !(isGone (outcome s.endpoint))) } :=
    sendToAll_db_of_perm db (getAllSubs db) outcome (getAllSubs_perm db)
  have hpart : (sendToAll db (getAllSubs db) outcome).2.sent +
      (sendToAll db (getAllSubs db) outcome).2.failed = (getAllSubs db).length := by
    rw [sendToAll_sent, sendToAll_failed]
    exact countP_add_countP_not _ _
  refine ⟨sendToAll_removed db _ outcome, ?_, by omega, hpart, ?_, ?_, rfl⟩
  · rw [sendToAll_failed]
    apply List.countP_mono_left
    intro s _ hgone
    cases h : outcome s.endpoint with
    | success => rw [h] at hgone; simp [isGone] at hgone
    | failure st body => simp [isSuccess, h]
  · rw [hsubs]
  · rw [hsubs]
    have h1 : db.subs.countP (fun s => !(isGone (outcome s.endpoint))) =
        (db.subs.filter (fun s => !(isGone (outcome s.endpoint)))).length :=
      List.countP_eq_length_filter _ _
    have h2 : (getAllSubs db).countP (fun s => isGone (outcome s.endpoint)) =
        db.subs.countP (fun s => isGone (outcome s.endpoint)) :=
      (getAllSubs_perm db).countP_eq _
    have h3 : (getAllSubs db).length = db.subs.length :=
      (getAllSubs_perm db).length_eq
    have h4 := countP_add_countP_not (fun s => isGone (outcome s.endpoint)) db.subs
    simp only []
    omega

/-- Claim C3: per-subscription attempts are isolated, the success and
failure counts are a pointwise count of each attempt under its own
outcome, and the notify operation answers ok with the generated id for
every outcome assignment once the message record is persisted. -/
theorem dispatch_isolation_notify_success (db : DB) (subs : List Subscription)
    (outcome : String → PushResult) (req : NotifyReq) (newId : String)
    (ht : truthy req.title = true) (hb : truthy req.body = true) :
    (sendToAll db subs outcome).2.sent =
      subs.countP (fun s => isSuccess (outcome s.endpoint)) ∧
    (sendToAll db subs outcome).2.failed =
      subs.countP (fun s => !(isSuccess (outcome s.endpoint))) ∧
    (∃ results, (apiNotify db req newId outcome).2 = NotifyResp.ok newId results) := by
  refine ⟨sendToAll_sent db subs outcome, sendToAll_failed db subs outcome, ?_⟩
  rw [apiNotify_valid_eq db req newId outcome ht hb]
  exact ⟨_, rfl⟩

/-- Witness for C3: notify still answers ok when every delivery fails. -/
theorem dispatch_isolation_notify_success_witness :
    ∃ results, (apiNotify emptyDb
      { title := some "Deploy", body := some "Ready",
        url := none, tag := none, ui := none } "m2"
      (fun _ => PushResult.failure (some 500) "server error")).2 =
      NotifyResp.ok "m2" results :=
  (dispatch_isolation_notify_success emptyDb []
    (fun _ => PushResult.failure (some 500) "server error")
    { title := some "Deploy", body := some "Ready",
      url := none, tag := none, ui := none } "m2" (by decide) (by decide)).2.2

/-- Claim C5: a validation failure (notify without title or body, respond
with neither text nor data, subscribe with a missing endpoint or key
field) answers 400 and leaves the store untouched. -/
theorem validation_aborts_before_persistence (db : DB) (reqN : NotifyReq)
    (reqR : RespondReq) (reqS : SubscribeReq) (newId rid : String)
    (outcome : String → PushResult) :
    (truthy reqN.title = false ∨ truthy reqN.body = false →
      apiNotify db reqN newId outcome = (db, NotifyResp.badRequest)) ∧
    (truthy reqR.text = false ∧ truthy reqR.data = false →
      apiRespond db reqR rid = (db, RespondResp.badRequest)) ∧
    (truthy reqS.endpoint = false ∨ truthy reqS.p256dh = false ∨
        truthy reqS.auth = false →
      apiSubscribe db reqS = (db, SimpleResp.badRequest)) := by
  refine ⟨?_, ?_, ?_⟩
  · intro h
    rcases h with h | h <;> rw [apiNotify, if_pos (by simp [h])]
  · rintro ⟨h1, h2⟩
    rw [apiRespond, if_pos (by simp [h1, h2])]
  · intro h
    rcases h with h | h | h <;> rw [apiSubscribe, if_pos (by simp [h])]

/-- Witness for C5 at three concrete invalid requests. -/
theorem validation_aborts_before_persistence_witness :
    apiNotify emptyDb
        { title := none, body := some "Ready", url := none, tag := none, ui := none }
        "m3" (fun _ => PushResult.success) = (emptyDb, NotifyResp.badRequest) ∧
    apiRespond emptyDb { messageId := none, text := none, data := none } "r3" =
      (emptyDb, RespondResp.badRequest) ∧
    apiSubscribe emptyDb
        { endpoint := some "https://push.example/e1", p256dh := none, auth := none } =
      (emptyDb, SimpleResp.badRequest) := by
  have h := validation_aborts_before_persistence emptyDb
    { title := none, body := some "Ready", url := none, tag := none, ui := none }
    { messageId := none, text := none, data := none }
    { endpoint := some "https://push.example/e1", p256dh := none, auth := none }
    "m3" "r3" (fun _ => PushResult.success)
  exact ⟨h.1 (Or.inl (by decide)), h.2.1 ⟨by decide, by decide⟩,
    h.2.2 (Or.inr (Or.inl (by decide)))⟩

/-- Claim C4 (amended): a respond request that omits messageId links the
stored response to a notification with the maximal sentAt at call time;
among notifications tied at that maximal timestamp (datetime has
one-second granularity) the choice is unspecified, matching the query
contract; with no notification present the response is stored with NULL
parentId; in both cases the operation answers ok with the fresh
responseId. -/
theorem respond_links_latest_notification (db : DB) (req : RespondReq)
    (rid : String) (hmid : truthy req.messageId = false)
    (hvalid : truthy req.text = true ∨ truthy req.data = true) :
    (apiRespond db req rid).2 = RespondResp.ok rid ∧
    isLatestNotificationResult db (latestNotificationId db) ∧
    ((∃ n ∈ db.messages, n.type = "notification") →
      ∃ p, p ∈ db.messages ∧ p.type = "notification" ∧
        (∀ m ∈ db.messages, m.type = "notification" → m.sentAt ≤ p.sentAt) ∧
        (apiRespond db req rid).1.messages = db.messages ++
          [{ id := rid, title := "Response", body := req.text.getD "",
             sentAt := db.now, type := "response", parentId := some p.id,
             ui := none, data := req.data }]) ∧
    ((∀ m ∈ db.messages, m.type ≠ "notification") →
      (apiRespond db req rid).1.messages = db.messages ++
        [{ id := rid, title := "Response", body := req.text.getD "",
           sentAt := db.now, type := "response", parentId := none,
           ui := none, data := req.data }]) := by
  have heq := apiRespond_valid_eq db req rid hmid hvalid
  refine ⟨by rw [heq], latestNotificationId_contract db, ?_, ?_⟩
  · intro hne
    obtain ⟨p, hid, hmem, htype, hmax⟩ := latestNotificationId_max db hne
    refine ⟨p, hmem, htype, hmax, ?_⟩
    rw [heq]
    simp only [insertMessageRun]
    rw [hid]
  · intro hnone
    have hnil : db.messages.filter (fun m => m.type == "notification") = [] := by
      rw [List.filter_eq_nil_iff]
      intro m hm
      simp [hnone m hm]
    have hlid : latestNotificationId db = none := by
      rw [latestNotificationId, hnil]
      rfl
    rw [heq]
    simp only [insertMessageRun]
    rw [hlid]

/-- A concrete store holding two notifications written in distinct
seconds, for the respond witness. -/
def dbC4 : DB :=
  { subs := [], nextSubId := 1,
    messages :=
      [{ id := "n1", title := "Alert A", body := "body A", sentAt := 0,
         type := "notification", parentId := none, ui := none, data := none },
       { id := "n2", title := "Alert B", body := "body B", sentAt := 1,
         type := "notification", parentId := none, ui := none, data := none }],
    webhooks := [], now := 2 }

/-- Witness for C4: responding without messageId on a store with two
notifications links to one with the maximal sentAt. -/
theorem respond_links_latest_notification_witness :
    (apiRespond dbC4 { messageId := none, text := some "approved", data := none }
        "r1").2 = RespondResp.ok "r1" ∧
    ∃ p, p ∈ dbC4.messages ∧ p.type = "notification" ∧
      (∀ m ∈ dbC4.messages, m.type = "notification" → m.sentAt ≤ p.sentAt) ∧
      (apiRespond dbC4 { messageId := none, text := some "approved", data := none }
          "r1").1.messages = dbC4.messages ++
        [{ id := "r1", title := "Response",
           body := (some "approved").getD "",
           sentAt := dbC4.now, type := "response", parentId := some p.id,
           ui := none, data := none }] := by
  have h := respond_links_latest_notification dbC4
    { messageId := none, text := some "approved", data := none } "r1"
    (by decide) (Or.inl (by decide))
  exact ⟨h.1, h.2.2.1 (by decide)⟩

/-- A store with two notifications written in the same datetime second:
n1 inserted before n2, both stamped 5. -/
def dbTie : DB :=
  { subs := [], nextSubId := 1,
    messages :=
      [{ id := "n1", title := "Alert A", body := "body A", sentAt := 5,
         type := "notification", parentId := none, ui := none, data := none },
       { id := "n2", title := "Alert B", body := "body B", sentAt := 5,
         type := "notification", parentId := none, ui := none, data := none }],
    webhooks := [], now := 5 }

/-- Counterexample to claim C4 as stated: in dbTie the two notifications
share the maximal sentAt, n2 being the later insertion, so the claimed
tie-break by insertion order would force the query result n2.  But the
first-inserted n1 satisfies everything the source query (ORDER BY sentAt
DESC LIMIT 1, no secondary key) guarantees of its result, so the code is
free to link the response to n1: it does not guarantee the tie-break. -/
theorem respond_tie_counterexample :
    dbTie.messages.map Message.id = ["n1", "n2"] ∧
    dbTie.messages.map Message.type = ["notification", "notification"] ∧
    dbTie.messages.map Message.sentAt = [5, 5] ∧
    isLatestNotificationResult dbTie (some "n1") ∧
    ¬ (∀ res : Option String, isLatestNotificationResult dbTie res →
        res = some "n2") := by
  have h1 : isLatestNotificationResult dbTie (some "n1") := by
    show ∃ n ∈ dbTie.messages, n.type = "notification" ∧ n.id = "n1" ∧
      ∀ m ∈ dbTie.messages, m.type = "notification" → m.sentAt ≤ n.sentAt
    decide
  refine ⟨by decide, by decide, by decide, h1, ?_⟩
  intro hall
  exact absurd (hall (some "n1") h1) (by decide)

/-- Claim C6: fireWebhooks invokes a hook for event kind e exactly when
its events field is the wildcard or e is an exact member of its
comma-delimited list; so a hook registered for notification only is not
called on a respond operation (event kind response) but is called on
notify, and a wildcard hook is called for both kinds. -/
theorem webhook_filter_correct (db : DB) :
    (∀ (e : String) (h : Webhook), h ∈ firedWebhooks db e ↔
      h ∈ db.webhooks ∧ (h.events = "*" ∨ e ∈ splitComma h.events)) ∧
    (∀ h ∈ db.webhooks, h.events = "notification" →
      h ∉ firedWebhooks db "response" ∧ h ∈ firedWebhooks db "notification") ∧
    (∀ h ∈ db.webhooks, h.events = "*" →
      h ∈ firedWebhooks db "notification" ∧ h ∈ firedWebhooks db "response") := by
  have hiff : ∀ (e : String) (h : Webhook), h ∈ firedWebhooks db e ↔
      h ∈ db.webhooks ∧ (h.events = "*" ∨ e ∈ splitComma h.events) := by
    intro e h
    constructor
    · intro hmem
      obtain ⟨hm, hmatch⟩ := List.mem_filter.mp hmem
      refine ⟨hm, ?_⟩
      rcases Bool.or_eq_true_iff.mp hmatch with hstar | hcont
      · exact Or.inl (by simpa using hstar)
      · exact Or.inr (by simpa [List.elem_iff] using hcont)
    · rintro ⟨hm, hstar | hcont⟩
      · exact List.mem_filter.mpr ⟨hm, by simp [webhookMatches, hstar]⟩
      · exact List.mem_filter.mpr ⟨hm,
          by simp [webhookMatches, List.elem_iff, hcont]⟩
  refine ⟨hiff, ?_, ?_⟩
  · intro h hm hev
    constructor
    · intro hcontra
      rcases (hiff "response" h).mp hcontra with ⟨_, hstar | hcont⟩
      · rw [hev] at hstar
        exact absurd hstar (by decide)
      · rw [hev] at hcont
        exact absurd hcont (by decide)
    · exact (hiff "notification" h).mpr ⟨hm, Or.inr (by rw [hev]; decide)⟩
  · intro h hm hev
    exact ⟨(hiff "notification" h).mpr ⟨hm, Or.inl hev⟩,
      (hiff "response" h).mpr ⟨hm, Or.inl hev⟩⟩

/-- A concrete store with one notification-only hook and one wildcard
hook, for the webhook witness. -/
def dbHooks : DB :=
  { subs := [], nextSubId := 1, messages := [],
    webhooks := [{ id := 1, url := "https://hooks.example/a", events := "notification" },
                 { id := 2, url := "https://hooks.example/b", events := "*" }],
    now := 0 }

/-- Witness for C6 on the two concrete hooks. -/
theorem webhook_filter_correct_witness :
    ({ id := 1, url := "https://hooks.example/a", events := "notification" } : Webhook) ∉
      firedWebhooks dbHooks "response" ∧
    ({ id := 1, url := "https://hooks.example/a", events := "notification" } : Webhook) ∈
      firedWebhooks dbHooks "notification" ∧
    ({ id := 2, url := "https://hooks.example/b", events := "*" } : Webhook) ∈
      firedWebhooks dbHooks "notification" ∧
    ({ id := 2, url := "https://hooks.example/b", events := "*" } : Webhook) ∈
      firedWebhooks dbHooks "response" := by
  have h := webhook_filter_correct dbHooks
  have h1 := h.2.1 { id := 1, url := "https://hooks.example/a", events := "notification" }
    (by decide) rfl
  have h2 := h.2.2 { id := 2, url := "https://hooks.example/b", events := "*" }
    (by decide) rfl
  exact ⟨h1.1, h1.2, h2.1, h2.2⟩

/-- Claim C7: unregistering an absent endpoint answers ok and leaves the
registry (hence the subscriber count) unchanged; subscribing is an
upsert: after registering endpoint e with fresh key material the registry
holds exactly one row for e, carrying the new material, and every
previously registered row for e whose key material differs is gone. -/
theorem unsubscribe_idempotent_subscribe_upsert (db : DB) (e p a : String)
    (he : e ≠ "") (hp : p ≠ "") (ha : a ≠ "") :
    ((∀ s ∈ db.subs, s.endpoint ≠ e) →
      apiUnsubscribe db (some e) = (db, SimpleResp.ok) ∧
      getSubCount (apiUnsubscribe db (some e)).1 = getSubCount db) ∧
    (apiSubscribe db { endpoint := some e, p256dh := some p, auth := some a }).2 =
      SimpleResp.ok ∧
    ((apiSubscribe db
        { endpoint := some e, p256dh := some p, auth := some a }).1.subs.filter
      (fun s => s.endpoint == e)) =
      [(⟨db.nextSubId, e, p, a, db.now⟩ : Subscription)] ∧
    (∀ s0 ∈ db.subs, s0.endpoint = e →
      s0.keys_p256dh ≠ p ∨ s0.keys_auth ≠ a →
      s0 ∉ (apiSubscribe db
        { endpoint := some e, p256dh := some p, auth := some a }).1.subs) := by
  have hcondS : ¬((!(truthy (some e)) || !(truthy (some p)) ||
      !(truthy (some a))) = true) := by
    simp [truthy, he, hp, ha]
  refine ⟨?_, ?_, ?_, ?_⟩
  · intro habsent
    have hdel : apiUnsubscribe db (some e) = (db, SimpleResp.ok) := by
      rw [apiUnsubscribe, if_neg (by simp [truthy, he])]
      have hself : db.subs.filter (fun s => s.endpoint != e) = db.subs := by
        rw [List.filter_eq_self]
        intro s hs
        simp [habsent s hs]
      rw [deleteSubRun]
      show ({ db with subs := db.subs.filter (fun s => s.endpoint != e) },
        SimpleResp.ok) = (db, SimpleResp.ok)
      rw [hself]
    exact ⟨hdel, by rw [hdel]⟩
  · rw [apiSubscribe, if_neg hcondS]
  · rw [apiSubscribe, if_neg hcondS]
    show ((insertSubRun db e p a).subs.filter (fun s => s.endpoint == e)) = _
    rw [insertSubRun]
    show ((db.subs.filter (fun s => s.endpoint != e) ++
      [(⟨db.nextSubId, e, p, a, db.now⟩ : Subscription)]).filter
        (fun s => s.endpoint == e)) = _
    rw [List.filter_append, List.filter_filter]
    have hnil : db.subs.filter
        (fun s => (s.endpoint == e) && (s.endpoint != e)) = [] := by
      rw [List.filter_eq_nil_iff]
      intro s _
      simp [bne]
    rw [hnil]
    simp
  · intro s0 hs0 hept hkeys hcontra
    rw [apiSubscribe, if_neg hcondS] at hcontra
    simp only [insertSubRun] at hcontra
    rcases List.mem_append.mp hcontra with hmem | hmem
    · have := (List.mem_filter.mp hmem).2
      simp [hept] at this
    · have hs0eq := List.mem_singleton.mp hmem
      rcases hkeys with hk | hk
      · exact hk (congrArg Subscription.keys_p256dh hs0eq)
      · exact hk (congrArg Subscription.keys_auth hs0eq)

/-- A concrete one-subscription store for the registry witness. -/
def dbC7 : DB :=
  { subs := [{ id := 1, endpoint := "https://push.example/old",
               keys_p256dh := "k1", keys_auth := "a1", createdAt := 0 }],
    nextSubId := 2, messages := [], webhooks := [], now := 3 }

/-- Witness for C7: unregistering an endpoint absent from dbC7 changes
nothing, and re-subscribing the already-registered endpoint with fresh
key material leaves exactly one row for it, carrying the new material,
the old row being gone. -/
theorem unsubscribe_idempotent_subscribe_upsert_witness :
    (apiUnsubscribe dbC7 (some "https://push.example/new") = (dbC7, SimpleResp.ok) ∧
      getSubCount (apiUnsubscribe dbC7 (some "https://push.example/new")).1 =
        getSubCount dbC7) ∧
    (apiSubscribe dbC7
        { endpoint := some "https://push.example/old",
          p256dh := some "p9", auth := some "a9" }).2 = SimpleResp.ok ∧
    ((apiSubscribe dbC7
        { endpoint := some "https://push.example/old",
          p256dh := some "p9", auth := some "a9" }).1.subs.filter
      (fun s => s.endpoint == "https://push.example/old")) =
      [(⟨dbC7.nextSubId, "https://push.example/old", "p9", "a9",
         dbC7.now⟩ : Subscription)] ∧
    (⟨1, "https://push.example/old", "k1", "a1", 0⟩ : Subscription) ∉
      (apiSubscribe dbC7
        { endpoint := some "https://push.example/old",
          p256dh := some "p9", auth := some "a9" }).1.subs := by
  have hnew := unsubscribe_idempotent_subscribe_upsert dbC7
    "https://push.example/new" "p9" "a9" (by decide) (by decide) (by decide)
  have hold := unsubscribe_idempotent_subscribe_upsert dbC7
    "https://push.example/old" "p9" "a9" (by decide) (by decide) (by decide)
  exact ⟨hnew.1 (by decide), hold.2.1, hold.2.2.1,
    hold.2.2.2 ⟨1, "https://push.example/old", "k1", "a1", 0⟩ (by decide) rfl
      (Or.inl (by decide))⟩

/-- Claim C8: the purge operation keeps every subscription whose probe
push succeeds, removes exactly the subscriptions whose probe reports
gone, and answers with that removal count and the remaining count. -/
theorem purge_only_removes_gone (db : DB) (outcome : String → PushResult) :
    (∀ s ∈ db.subs, outcome s.endpoint = PushResult.success →
      s ∈ (apiPurge db outcome).1.subs) ∧
    (apiPurge db outcome).1.subs =
      db.subs.filter (fun s => !(isGone (outcome s.endpoint))) ∧
    (apiPurge db outcome).2.removed =
      db.subs.countP (fun s => isGone (outcome s.endpoint)) ∧
    (apiPurge db outcome).2.remaining = (apiPurge db outcome).1.subs.length := by
  have hdb : (apiPurge db outcome).1 =
      { db with subs := db.subs.filter (fun s => !(isGone (outcome s.endpoint))) } := by
    show ((getAllSubs db).foldl (purgeStep outcome) (db, 0)).1 = _
    exact purge_fold_db_of_perm db (getAllSubs db) outcome (getAllSubs_perm db)
  refine ⟨?_, ?_, ?_, rfl⟩
  · intro s hs hsucc
    rw [hdb]
    exact List.mem_filter.mpr ⟨hs, by simp [isGone, hsucc]⟩
  · rw [hdb]
  · show ((getAllSubs db).foldl (purgeStep outcome) (db, 0)).2 = _
    rw [purge_fold_removed]
    simp [(getAllSubs_perm db).countP_eq]

/-- A two-subscription store and probe outcome for the purge witness:
one live endpoint, one endpoint answering 410. -/
def dbC8 : DB :=
  { subs := [{ id := 1, endpoint := "https://push.example/live",
               keys_p256dh := "k", keys_auth := "a", createdAt := 0 },
             { id := 2, endpoint := "https://push.example/dead",
               keys_p256dh := "k", keys_auth := "a", createdAt := 1 }],
    nextSubId := 3, messages := [], webhooks := [], now := 2 }

/-- Probe outcome for the purge witness. -/
def outC8 : String → PushResult := fun ep =>
  if ep == "https://push.example/dead" then PushResult.failure (some 410) "Gone"
  else PushResult.success

/-- Witness for C8: the live subscription survives the purge. -/
theorem purge_only_removes_gone_witness :
    ({ id := 1, endpoint := "https://push.example/live",
       keys_p256dh := "k", keys_auth := "a", createdAt := 0 } : Subscription) ∈
      (apiPurge dbC8 outC8).1.subs :=
  (purge_only_removes_gone dbC8 outC8).1
    { id := 1, endpoint := "https://push.example/live",
      keys_p256dh := "k", keys_auth := "a", createdAt := 0 }
    (by decide) (by decide)

/-- The message-kind invariant of the spec: a notification row never
carries response data, and a response row has the fixed title. -/
def msgOk (m : Message) : Prop :=
  (m.type = "notification" → m.data = none) ∧
  (m.type = "response" → m.title = "Response")

/-- Claim C9: every operation that inserts a message (HTTP notify, HTTP
respond, WebSocket notify) preserves the message-kind invariant. -/
theorem message_kind_invariant (db : DB) (reqN : NotifyReq) (reqR : RespondReq)
    (wmsg : WsMsg) (idN idR idW : String) (outcome : String → PushResult)
    (hold : ∀ m ∈ db.messages, msgOk m) :
    (∀ m ∈ (apiNotify db reqN idN outcome).1.messages, msgOk m) ∧
    (∀ m ∈ (apiRespond db reqR idR).1.messages, msgOk m) ∧
    (∀ m ∈ (wsNotify db wmsg idW outcome).messages, msgOk m) := by
  refine ⟨?_, ?_, ?_⟩
  · by_cases hc : (!(truthy reqN.title) || !(truthy reqN.body)) = true
    · rw [apiNotify, if_pos hc]
      exact hold
    · have hc' : truthy reqN.title = true ∧ truthy reqN.body = true := by
        simpa using hc
      rw [apiNotify_valid_eq db reqN idN outcome hc'.1 hc'.2]
      intro m hm
      rw [show ((sendToAll (notifyPersisted db reqN idN)
          (getAllSubs (notifyPersisted db reqN idN)) outcome).1,
          NotifyResp.ok idN (sendToAll (notifyPersisted db reqN idN)
            (getAllSubs (notifyPersisted db reqN idN)) outcome).2).1 =
          (sendToAll (notifyPersisted db reqN idN)
            (getAllSubs (notifyPersisted db reqN idN)) outcome).1 from rfl,
        sendToAll_messages] at hm
      simp only [notifyPersisted, insertMessageRun] at hm
      rcases List.mem_append.mp hm with hm | hm
      · exact hold m hm
      · rw [List.mem_singleton.mp hm]
        exact ⟨fun _ => rfl, fun habs =>
          absurd habs (show ("notification" : String) ≠ "response" by decide)⟩
  · by_cases hc : (!(truthy reqR.text) && !(truthy reqR.data)) = true
    · rw [apiRespond, if_pos hc]
      exact hold
    · rw [apiRespond, if_neg hc]
      intro m hm
      simp only [insertMessageRun] at hm
      rcases List.mem_append.mp hm with hm | hm
      · exact hold m hm
      · rw [List.mem_singleton.mp hm]
        exact ⟨fun habs =>
          absurd habs (show ("response" : String) ≠ "notification" by decide),
          fun _ => rfl⟩
  · by_cases hc : (wmsg.type == "notify" && truthy wmsg.title &&
        truthy wmsg.body) = true
    · rw [wsNotify, if_pos hc]
      intro m hm
      rw [sendToAll_messages] at hm
      simp only [insertMessageRun] at hm
      rcases List.mem_append.mp hm with hm | hm
      · exact hold m hm
      · rw [List.mem_singleton.mp hm]
        exact ⟨fun _ => rfl, fun habs =>
          absurd habs (show ("notification" : String) ≠ "response" by decide)⟩
    · rw [wsNotify, if_neg hc]
      exact hold

/-- Witness for C9 on the empty store with three concrete operations. -/
theorem message_kind_invariant_witness :
    (∀ m ∈ (apiNotify emptyDb
      { title := some "Deploy", body := some "Ready",
        url := none, tag := none, ui := some "uispec" } "m4"
      (fun _ => PushResult.success)).1.messages, msgOk m) ∧
    (∀ m ∈ (apiRespond emptyDb
      { messageId := none, text := some "ok", data := some "42" } "r4").1.messages,
      msgOk m) ∧
    (∀ m ∈ (wsNotify emptyDb
      { type := "notify", title := some "Ping", body := some "Pong" } "w4"
      (fun _ => PushResult.success)).messages, msgOk m) :=
  message_kind_invariant emptyDb
    { title := some "Deploy", body := some "Ready",
      url := none, tag := none, ui := some "uispec" }
    { messageId := none, text := some "ok", data := some "42" }
    { type := "notify", title := some "Ping", body := some "Pong" }
    "m4" "r4" "w4" (fun _ => PushResult.success)
    (fun m hm => absurd hm (List.not_mem_nil m))

/-- Claim C10 (amended): re-subscribing an existing endpoint is not an
in-place update: the INSERT OR REPLACE deletes the old row and appends a
fresh one, so the numeric id changes (to the next AUTOINCREMENT value),
createdAt resets to the current time (at least the old stamp), and the
old row is gone.  The fresh row carries the maximal timestamp, so the
head of the newest-first listing has that timestamp, and the fresh row
itself is first whenever no other subscription shares its creation
second; among rows tied at the same second the listing order is
unspecified. -/
theorem resubscribe_replaces_row (db : DB) (s0 : Subscription) (p a : String)
    (hwf : WF db) (hs0 : s0 ∈ db.subs) :
    ∃ s1 : Subscription,
      (insertSubRun db s0.endpoint p a).subs =
        db.subs.filter (fun s => s.endpoint != s0.endpoint) ++ [s1] ∧
      s1.endpoint = s0.endpoint ∧ s1.id = db.nextSubId ∧ s1.id ≠ s0.id ∧
      s1.createdAt = db.now ∧ s0.createdAt ≤ s1.createdAt ∧
      s0 ∉ (insertSubRun db s0.endpoint p a).subs ∧
      isListingResult (insertSubRun db s0.endpoint p a)
        (getAllSubs (insertSubRun db s0.endpoint p a)) ∧
      (∃ z, (getAllSubs (insertSubRun db s0.endpoint p a)).head? = some z ∧
        z.createdAt = db.now) ∧
      ((∀ s ∈ db.subs, s.createdAt < db.now) →
        (getAllSubs (insertSubRun db s0.endpoint p a)).head? = some s1) := by
  refine ⟨(⟨db.nextSubId, s0.endpoint, p, a, db.now⟩ : Subscription),
    rfl, rfl, rfl, ?_, rfl, ?_, ?_, getAllSubs_contract _, ?_, ?_⟩
  · show db.nextSubId ≠ s0.id
    have := hwf.1 s0 hs0
    omega
  · exact hwf.2.1 s0 hs0
  · intro hcontra
    show False
    rw [insertSubRun] at hcontra
    rcases List.mem_append.mp hcontra with hmem | hmem
    · have := (List.mem_filter.mp hmem).2
      simp at this
    · have hid := congrArg Subscription.id (List.mem_singleton.mp hmem)
      have := hwf.1 s0 hs0
      simp at hid
      omega
  · have hne : (insertSubRun db s0.endpoint p a).subs ≠ [] := by
      rw [insertSubRun]
      simp
    obtain ⟨z, hhead, hzmem, hzmax⟩ :=
      sortDescBy_head_max Subscription.createdAt _ hne
    refine ⟨z, hhead, ?_⟩
    have hz_le : z.createdAt ≤ db.now := by
      simp only [insertSubRun] at hzmem
      rcases List.mem_append.mp hzmem with hmem | hmem
      · exact hwf.2.1 z (List.mem_of_mem_filter hmem)
      · rw [List.mem_singleton.mp hmem]
    have hs1mem : (⟨db.nextSubId, s0.endpoint, p, a, db.now⟩ : Subscription) ∈
        (insertSubRun db s0.endpoint p a).subs := by
      rw [insertSubRun]
      exact List.mem_append_right _ (List.mem_singleton.mpr rfl)
    have hge : db.now ≤ z.createdAt := hzmax _ hs1mem
    show z.createdAt = db.now
    omega
  · intro hstrict
    rw [getAllSubs, insertSubRun]
    show (sortDescBy Subscription.createdAt
      (db.subs.filter (fun s => s.endpoint != s0.endpoint) ++ [_])).head? = _
    apply sortDescBy_append_max_head
    intro y hy
    exact hstrict y (List.mem_of_mem_filter hy)

/-- Witness for C10 on a concrete one-subscription store whose single
row was created in an earlier second. -/
theorem resubscribe_replaces_row_witness :
    ∃ s1 : Subscription,
      (insertSubRun dbC7 "https://push.example/old" "p8" "a8").subs =
        dbC7.subs.filter (fun s => s.endpoint != "https://push.example/old") ++ [s1] ∧
      s1.endpoint = "https://push.example/old" ∧ s1.id = dbC7.nextSubId ∧
      s1.id ≠ 1 ∧ s1.createdAt = dbC7.now ∧ (0 : Nat) ≤ s1.createdAt ∧
      ({ id := 1, endpoint := "https://push.example/old",
         keys_p256dh := "k1", keys_auth := "a1", createdAt := 0 } : Subscription) ∉
        (insertSubRun dbC7 "https://push.example/old" "p8" "a8").subs ∧
      isListingResult (insertSubRun dbC7 "https://push.example/old" "p8" "a8")
        (getAllSubs (insertSubRun dbC7 "https://push.example/old" "p8" "a8")) ∧
      (∃ z, (getAllSubs (insertSubRun dbC7 "https://push.example/old"
        "p8" "a8")).head? = some z ∧ z.createdAt = dbC7.now) ∧
      ((∀ s ∈ dbC7.subs, s.createdAt < dbC7.now) →
        (getAllSubs (insertSubRun dbC7 "https://push.example/old"
          "p8" "a8")).head? = some s1) :=
  resubscribe_replaces_row dbC7
    { id := 1, endpoint := "https://push.example/old",
      keys_p256dh := "k1", keys_auth := "a1", createdAt := 0 } "p8" "a8"
    (by simp only [WF]; decide) (by decide)

/-- A store in which re-subscribing endpoint e1 happens in the same
datetime second in which the sibling subscription e2 was created: both
rows end up stamped 7. -/
def dbTieSub : DB :=
  { subs := [{ id := 1, endpoint := "https://push.example/e1",
               keys_p256dh := "k1", keys_auth := "a1", createdAt := 7 },
             { id := 2, endpoint := "https://push.example/e2",
               keys_p256dh := "k2", keys_auth := "a2", createdAt := 7 }],
    nextSubId := 3, messages := [], webhooks := [], now := 7 }

/-- Counterexample to claim C10 as stated: after re-subscribing e1 in
dbTieSub, the fresh e1 row is tied with the e2 row at createdAt 7.  The
listing below satisfies everything the source query (ORDER BY createdAt
DESC, no secondary key) guarantees, yet its head is the e2 row, so the
code does not guarantee that the re-subscribed endpoint moves to the
front of the newest-first listing. -/
theorem resubscribe_front_counterexample :
    (insertSubRun dbTieSub "https://push.example/e1" "p9" "a9").subs =
      [(⟨2, "https://push.example/e2", "k2", "a2", 7⟩ : Subscription),
       (⟨3, "https://push.example/e1", "p9", "a9", 7⟩ : Subscription)] ∧
    isListingResult (insertSubRun dbTieSub "https://push.example/e1" "p9" "a9")
      [(⟨2, "https://push.example/e2", "k2", "a2", 7⟩ : Subscription),
       (⟨3, "https://push.example/e1", "p9", "a9", 7⟩ : Subscription)] ∧
    (⟨3, "https://push.example/e1", "p9", "a9", 7⟩ : Subscription) ∈
      (insertSubRun dbTieSub "https://push.example/e1" "p9" "a9").subs ∧
    ¬ (∀ l : List Subscription,
        isListingResult (insertSubRun dbTieSub "https://push.example/e1"
          "p9" "a9") l →
        l.head? =
          some (⟨3, "https://push.example/e1", "p9", "a9", 7⟩ : Subscription)) := by
  have hlist : isListingResult
      (insertSubRun dbTieSub "https://push.example/e1" "p9" "a9")
      [(⟨2, "https://push.example/e2", "k2", "a2", 7⟩ : Subscription),
       (⟨3, "https://push.example/e1", "p9", "a9", 7⟩ : Subscription)] := by
    constructor
    · exact List.Perm.refl _
    · decide
  refine ⟨by decide, hlist, by decide, ?_⟩
  intro hall
  exact absurd (hall _ hlist) (by decide)

end Oncall
